import Mathlib

/-!
Verification development for the news-app repository
(`src/news_search_core.py`).  Python functions are shallowly embedded as
executable Lean definitions; external library calls (HTTP, BeautifulSoup
parsing, `urllib.parse.urljoin`, `datetime` parsing) are passed in as
explicit oracle parameters, while every piece of repository logic is
translated directly from the source.
-/

namespace NewsApp

/-! ## Basic Python-modelling string utilities -/

/-- Sublist-at-some-position test used to model Python `in` on strings. -/
def subListSomewhere (needle : List Char) : List Char → Bool
  | [] => needle.isEmpty
  | c :: t => needle.isPrefixOf (c :: t) || subListSomewhere needle t

/-- Model of the Python substring test `needle in hay`. -/
def strContains (hay needle : String) : Bool :=
  subListSomewhere needle.data hay.data

/-- Python whitespace characters recognised by `str.strip()` (ASCII range;
the inputs handled by this development contain no exotic unicode spaces). -/
def isPySpace (c : Char) : Bool :=
  c = ' ' || c = '\t' || c = '\n' || c = '\r' || c.toNat = 11 || c.toNat = 12

/-- Model of Python `str.strip()`. -/
def pyStrip (s : String) : String :=
  String.mk (((s.data.dropWhile isPySpace).reverse.dropWhile isPySpace).reverse)

/-- Lower-casing of one character as Python `str.lower()` does it, covering
the ASCII letters and the Cyrillic range actually exercised by the code. -/
def pyLowerChar (c : Char) : Char :=
  if 'A' ≤ c ∧ c ≤ 'Z' then Char.ofNat (c.toNat + 32)
  else if 0x410 ≤ c.toNat ∧ c.toNat ≤ 0x42F then Char.ofNat (c.toNat + 32)
  else if c.toNat = 0x401 then Char.ofNat 0x451
  else c

/-- Model of Python `str.lower()` (ASCII plus Cyrillic, see `pyLowerChar`). -/
def pyLower (s : String) : String :=
  String.mk (s.data.map pyLowerChar)

/-- Model of Python `sep.join(parts)`. -/
def joinSep (sep : String) : List String → String
  | [] => ""
  | [x] => x
  | x :: xs => x ++ sep ++ joinSep sep xs

/-- Model of Python `str.split(sep)` for a one-character separator
(used for `text.split("\n")`). -/
def pySplitOn (s : String) (sep : Char) : List String :=
  s.data.splitOn sep |>.map String.mk

/-- Model of argumentless Python `str.split()`: split on whitespace runs,
dropping empty pieces. -/
def pySplitWs (s : String) : List String :=
  ((s.data.splitOnP isPySpace).map String.mk).filter (fun p => p ≠ "")

/-- Python truthiness of an optional string (`None` and `""` are falsy). -/
def pyFalsy : Option String → Bool
  | none => true
  | some s => s = ""

/-- Python `a or b` on optional strings. -/
def pyOrOpt (a b : Option String) : Option String :=
  if pyFalsy a then b else a

/-! ## `_parse_protobuf` (src/news_search_core.py lines 79-150)

The byte stream is modelled as a `List Nat` (each entry one byte).  The
varint reader mirrors the Python loop including its behaviour on truncated
input (it simply stops and keeps the partial value). -/

/-- Varint reader used for both the tag and the size in `_parse_protobuf`:
accumulates 7-bit groups until a byte without the continuation bit, or the
end of input.  Returns the value and the unconsumed rest. -/
def readVarintAux (shift acc : Nat) : List Nat → Nat × List Nat
  | [] => (acc, [])
  | b :: rest =>
    let acc2 := acc ||| ((b &&& 0x7f) <<< shift)
    if b &&& 0x80 = 0 then (acc2, rest)
    else readVarintAux (shift + 7) acc2 rest

/-- Read one varint from the front of the byte list. -/
def readVarint (l : List Nat) : Nat × List Nat :=
  readVarintAux 0 0 l



/-- Byte skip for wire type 0 inside `_parse_protobuf`: drop continuation
bytes, then one more byte. -/
def skipVarintBytes (l : List Nat) : List Nat :=
  (l.dropWhile (fun b => b &&& 0x80 ≠ 0)).drop 1

/-! ### UTF-8 decoding (model of Python `bytes.decode("utf-8")`) -/

/-- Continuation-byte test. -/
def isCont (b : Nat) : Bool := 0x80 ≤ b ∧ b ≤ 0xBF

/-- Strict UTF-8 decoder over a byte list, following the standard validity
rules Python enforces (no overlong forms, no surrogates, max U+10FFFF).
The first argument is recursion fuel; `fuel = l.length` always suffices
because every step consumes at least one byte. -/
def utf8DecodeGo : Nat → List Nat → Option (List Char)
  | _, [] => some []
  | 0, _ :: _ => none
  | fuel + 1, b :: rest =>
    if b < 0x80 then
      (utf8DecodeGo fuel rest).map (fun cs => Char.ofNat b :: cs)
    else if 0xC2 ≤ b ∧ b ≤ 0xDF then
      match rest with
      | c1 :: r =>
        if isCont c1 then
          (utf8DecodeGo fuel r).map
            (fun cs => Char.ofNat (((b - 0xC0) <<< 6) ||| (c1 - 0x80)) :: cs)
        else none
      | [] => none
    else if 0xE0 ≤ b ∧ b ≤ 0xEF then
      match rest with
      | c1 :: c2 :: r =>
        let okc1 : Bool :=
          if b = 0xE0 then 0xA0 ≤ c1 ∧ c1 ≤ 0xBF
          else if b = 0xED then 0x80 ≤ c1 ∧ c1 ≤ 0x9F
          else isCont c1
        if okc1 ∧ isCont c2 then
          (utf8DecodeGo fuel r).map
            (fun cs =>
              Char.ofNat (((b - 0xE0) <<< 12) ||| ((c1 - 0x80) <<< 6) ||| (c2 - 0x80)) :: cs)
        else none
      | _ => none
    else if 0xF0 ≤ b ∧ b ≤ 0xF4 then
      match rest with
      | c1 :: c2 :: c3 :: r =>
        let okc1 : Bool :=
          if b = 0xF0 then 0x90 ≤ c1 ∧ c1 ≤ 0xBF
          else if b = 0xF4 then 0x80 ≤ c1 ∧ c1 ≤ 0x8F
          else isCont c1
        if okc1 ∧ isCont c2 ∧ isCont c3 then
          (utf8DecodeGo fuel r).map
            (fun cs =>
              Char.ofNat
                (((b - 0xF0) <<< 18) ||| ((c1 - 0x80) <<< 12) |||
                  ((c2 - 0x80) <<< 6) ||| (c3 - 0x80)) :: cs)
        else none
      | _ => none
    else none

/-- Model of `bytes.decode("utf-8")`, returning `none` where Python raises
`UnicodeDecodeError`. -/
def utf8Decode (l : List Nat) : Option String :=
  (utf8DecodeGo l.length l).map String.mk

/-- Model of Python `s.startswith(pre)`. -/
def strStartsWith (s pre : String) : Bool :=
  pre.data.isPrefixOf s.data

/-- Python `s.startswith("http://") or s.startswith("https://")`. -/
def startsWithHttp (s : String) : Bool :=
  strStartsWith s "http://" || strStartsWith s "https://"

/-- The URL check applied to one length-delimited field inside
`_parse_protobuf` (lines 131-137): UTF-8-decode and keep the string when
it starts with `http://` or `https://`; a decode error is swallowed. -/
def tryUrlOf (fieldData : List Nat) : Option String :=
  match utf8Decode fieldData with
  | some s => if startsWithHttp s then some s else none
  | none => none

/-! ### The protobuf scan itself -/

/-- Embedding of `_parse_protobuf` (lines 79-150): scan a byte stream as
tag/value records, returning the first length-delimited field (searched
recursively) that UTF-8-decodes to a string starting with `http://` or
`https://`.  Unknown wire types stop the scan; truncated input falls off
the loop and yields `none`, as in the Python.  The first argument is
recursion fuel: every step of the Python loop strictly consumes input
bytes (see `readVarint_rest_lt`), so `fuel = data.length` suffices. -/
def parseProtobufGo : Nat → List Nat → Option String
  | _, [] => none
  | 0, _ :: _ => none
  | fuel + 1, b :: rest =>
    let tagRest := readVarint (b :: rest)
    let wireType := tagRest.1 &&& 7
    if wireType = 0 then parseProtobufGo fuel (skipVarintBytes tagRest.2)
    else if wireType = 1 then parseProtobufGo fuel (tagRest.2.drop 8)
    else if wireType = 2 then
      match tagRest.2 with
      | [] => none
      | c :: cs =>
        let sizeRest := readVarint (c :: cs)
        if sizeRest.1 > sizeRest.2.length then none
        else
          let fieldData := sizeRest.2.take sizeRest.1
          match tryUrlOf fieldData with
          | some s => some s
          | none =>
            match parseProtobufGo fuel fieldData with
            | some found => some found
            | none => parseProtobufGo fuel (sizeRest.2.drop sizeRest.1)
    else if wireType = 5 then parseProtobufGo fuel (tagRest.2.drop 4)
    else none

/-- Entry point of the `_parse_protobuf` embedding. -/
def parseProtobuf (data : List Nat) : Option String :=
  parseProtobufGo data.length data

/-! ## URL-safe base64 decoding (model of `base64.urlsafe_b64decode`)

The argument strings produced by `decode_google_news_url` consist of
URL-safe alphabet characters followed only by trailing `=` padding, which
is the input class this model covers (`binascii` stops consuming data at
the first padding character). -/

/-- Value of one URL-safe base64 alphabet character. -/
def b64Val (c : Char) : Option Nat :=
  if 'A' ≤ c ∧ c ≤ 'Z' then some (c.toNat - 65)
  else if 'a' ≤ c ∧ c ≤ 'z' then some (c.toNat - 97 + 26)
  else if '0' ≤ c ∧ c ≤ '9' then some (c.toNat - 48 + 52)
  else if c = '-' then some 62
  else if c = '_' then some 63
  else none

/-- Map every character to its 6-bit value, failing on a non-alphabet
character. -/
def b64Vals : List Char → Option (List Nat)
  | [] => some []
  | c :: rest =>
    match b64Val c with
    | none => none
    | some v => (b64Vals rest).map (fun vs => v :: vs)

/-- Reassemble 6-bit groups into bytes.  A remainder of exactly one data
character is the `binascii.Error` case (`number of data characters cannot
be 1 more than a multiple of 4`). -/
def b64Assemble : List Nat → Option (List Nat)
  | [] => some []
  | [_] => none
  | [a, b] => some [((a <<< 2) ||| (b >>> 4)) % 256]
  | [a, b, c] =>
    some [((a <<< 2) ||| (b >>> 4)) % 256, (((b &&& 15) <<< 4) ||| (c >>> 2)) % 256]
  | a :: b :: c :: d :: rest =>
    (b64Assemble rest).map
      (fun t =>
        ((a <<< 2) ||| (b >>> 4)) % 256 ::
          (((b &&& 15) <<< 4) ||| (c >>> 2)) % 256 ::
            (((c &&& 3) <<< 6) ||| d) % 256 :: t)

/-- Model of `base64.urlsafe_b64decode` on the input class described above:
take data characters up to the first `=`, map them to 6-bit values and
reassemble; `none` models the raised `binascii.Error`. -/
def urlsafeB64Decode (s : String) : Option (List Nat) :=
  match b64Vals (s.data.takeWhile (fun c => c ≠ '=')) with
  | none => none
  | some vals => b64Assemble vals

/-! ## A small backtracking regular-expression engine

`re.search` is used by the source on a handful of fixed patterns, all of
shape: literal pieces, greedy one-or-more character classes, and exactly
one capturing group over a greedy one-or-more class.  The engine below
implements Python semantics for that class of patterns: leftmost starting
position wins, and each greedy quantifier tries the longest repetition
first, backtracking one character at a time. -/

/-- One pattern token: a single-character class, or a greedy one-or-more
repetition of a class (optionally the capturing group). -/
inductive RTok where
  | one (p : Char → Bool) : RTok
  | many (p : Char → Bool) (cap : Bool) : RTok

/-- Backtracking loop for a greedy `many`: try consuming `k` characters,
longest first, calling the continuation on the remainder. -/
def tryMany (cont : List Char → Option (Option (List Char))) (cap : Bool)
    (run l : List Char) : Nat → Option (Option (List Char))
  | 0 => none
  | k + 1 =>
    match cont (l.drop (k + 1)) with
    | some inner => some (if cap then some (run.take (k + 1)) else inner)
    | none => tryMany cont cap run l k

/-- Match a token list against a prefix of the input.  `some g` means the
pattern matched, with `g` the contents of the capturing group (if any). -/
def matchToks : List RTok → List Char → Option (Option (List Char))
  | [], _ => some none
  | RTok.one _ :: _, [] => none
  | RTok.one p :: ts, c :: rest => if p c then matchToks ts rest else none
  | RTok.many p cap :: ts, l =>
    let run := l.takeWhile p
    tryMany (fun rem => matchToks ts rem) cap run l run.length

/-- Scan of all starting positions, leftmost first. -/
def reSearchGo (toks : List RTok) : List Char → Option String
  | [] =>
    match matchToks toks [] with
    | some (some g) => some (String.mk g)
    | some none => some ""
    | none => none
  | c :: t =>
    match matchToks toks (c :: t) with
    | some (some g) => some (String.mk g)
    | some none => some ""
    | none => reSearchGo toks t

/-- Model of `re.search(pattern, s)` returning `m.group(1)`. -/
def reSearch (toks : List RTok) (s : String) : Option String :=
  reSearchGo toks s.data

/-- Literal token, optionally case-insensitive (`re.IGNORECASE`). -/
def litTok (ci : Bool) (c : Char) : RTok :=
  RTok.one (fun x => if ci then pyLowerChar x = pyLowerChar c else x = c)

/-- Literal string piece of a pattern. -/
def litToks (ci : Bool) (s : String) : List RTok :=
  s.data.map (litTok ci)

/-- The character class `["\x27]` (double or single quote). -/
def isQuoteChar (c : Char) : Bool := c = '"' || c.toNat = 39

/-- The character class `[^>]`. -/
def notGt (c : Char) : Bool := c ≠ '>'

/-- The character class `[^"\x27]`. -/
def notQuote (c : Char) : Bool := !(isQuoteChar c)

/-- The character class `[a-zA-Z0-9\-_]` of the article-token pattern. -/
def isTokenChar (c : Char) : Bool :=
  ('a' ≤ c ∧ c ≤ 'z') || ('A' ≤ c ∧ c ≤ 'Z') || ('0' ≤ c ∧ c ≤ '9') ||
    c = '-' || c = '_'

/-- Pattern `/articles/([a-zA-Z0-9\-_]+)` from `decode_google_news_url`. -/
def articlesPat : List RTok :=
  litToks false "/articles/" ++ [RTok.many isTokenChar true]

/-! ## `decode_google_news_url` (src/news_search_core.py lines 153-184) -/

/-- Padding fixup from `decode_google_news_url`: extend the token with `=`
to a multiple of four characters. -/
def padB64 (tok : String) : String :=
  let pad := tok.length % 4
  if pad ≠ 0 then tok ++ String.mk (List.replicate (4 - pad) '=') else tok

/-- Embedding of `decode_google_news_url` (lines 153-184): URLs that do not
carry the Google News articles marker are returned unchanged; otherwise the
base64 path token is extracted with `articlesPat`, padded, decoded and
scanned with `parseProtobuf`; every failure along the way (no token, bad
base64, no embedded URL — all exceptions are swallowed by the Python
`try/except`) falls back to the original URL. -/
def decode_google_news_url (url : String) : String :=
  if ¬ strContains url "news.google.com/rss/articles/" ∧
      ¬ strContains url "news.google.com/articles/" then url
  else
    match reSearch articlesPat url with
    | none => url
    | some tok =>
      match urlsafeB64Decode (padB64 tok) with
      | none => url
      | some bytes =>
        match parseProtobuf bytes with
        | some decodedUrl => decodedUrl
        | none => url

/-! ## Spec-side description of the protobuf scan (for claim C5)

The specification describes the resolver as returning "the first decoded
string beginning with http:// or https://" among all length-delimited
blobs encountered (recursively) by the scan.  `urlStrings` collects, in
scan order, every such string; the refinement theorem below states that
the code returns exactly the head of that list. -/

/-- All http(s) strings carried by length-delimited fields, in the order
the defensive scan encounters them (a blob itself before its nested
blobs, earlier fields before later ones). -/
def urlStringsGo : Nat → List Nat → List String
  | _, [] => []
  | 0, _ :: _ => []
  | fuel + 1, b :: rest =>
    let tagRest := readVarint (b :: rest)
    let wireType := tagRest.1 &&& 7
    if wireType = 0 then urlStringsGo fuel (skipVarintBytes tagRest.2)
    else if wireType = 1 then urlStringsGo fuel (tagRest.2.drop 8)
    else if wireType = 2 then
      match tagRest.2 with
      | [] => []
      | c :: cs =>
        let sizeRest := readVarint (c :: cs)
        if sizeRest.1 > sizeRest.2.length then []
        else
          let fieldData := sizeRest.2.take sizeRest.1
          (tryUrlOf fieldData).toList ++
            urlStringsGo fuel fieldData ++
              urlStringsGo fuel (sizeRest.2.drop sizeRest.1)
    else if wireType = 5 then urlStringsGo fuel (tagRest.2.drop 4)
    else []

/-- Entry point of the scan-order URL collection. -/
def urlStrings (data : List Nat) : List String :=
  urlStringsGo data.length data


/-! ## DOM model (for the BeautifulSoup-based extraction code)

HTML parsing itself is done by the external `bs4` library
(`BeautifulSoup(html, "html.parser")`, which is total on arbitrary
strings); the parsed document is modelled as a forest of nodes and the
parser is an oracle parameter `String → List HNode`.  The traversals are
written as mutual structural recursions over node/forest. -/

/-- A DOM node: an element with tag name, attributes and children, or a
text node. -/
inductive HNode where
  | elem (tag : String) (attrs : List (String × String)) (children : List HNode) : HNode
  | text (s : String) : HNode

/-- Children of a node (a text node has none). -/
def childrenOf : HNode → List HNode
  | HNode.elem _ _ ch => ch
  | HNode.text _ => []

/-- Attribute lookup, as `tag.get(name)`. -/
def getAttr (name : String) : List (String × String) → Option String
  | [] => none
  | (k, v) :: rest => if k = name then some v else getAttr name rest

mutual

/-- Decompose step on one node: drop it when its tag matches, otherwise
prune inside its children. -/
def pruneNodeOpt (tags : List String) : HNode → Option HNode
  | HNode.text s => some (HNode.text s)
  | HNode.elem t a ch =>
    if t ∈ tags then none else some (HNode.elem t a (pruneForest tags ch))

/-- Model of `tag.decompose()` applied to every element whose name is in
`tags` (the `for tag in soup.find_all([...]): tag.decompose()` loops):
remove each matching subtree. -/
def pruneForest (tags : List String) : List HNode → List HNode
  | [] => []
  | n :: rest =>
    match pruneNodeOpt tags n with
    | some m => m :: pruneForest tags rest
    | none => pruneForest tags rest

end

mutual

/-- First element with the given name inside one node (the node itself
included), in pre-order. -/
def findElemNode (tag : String) : HNode → Option HNode
  | HNode.text _ => none
  | HNode.elem t a ch =>
    if t = tag then some (HNode.elem t a ch) else findElemForest tag ch

/-- Model of `soup.find(tag)`: first element with the given name, in
pre-order over the forest. -/
def findElemForest (tag : String) : List HNode → Option HNode
  | [] => none
  | n :: rest =>
    match findElemNode tag n with
    | some m => some m
    | none => findElemForest tag rest

end

mutual

/-- Matches of `find_all([...], limit=·)` inside one node (the node itself
first, then its descendants), threading the remaining budget. -/
def findAllNode (tags : List String) : HNode → Nat → List HNode × Nat
  | HNode.text _, budget => ([], budget)
  | HNode.elem t a ch, budget =>
    if t ∈ tags then
      match budget with
      | 0 => ([], 0)
      | b + 1 =>
        let inner := findAllForest tags ch b
        (HNode.elem t a ch :: inner.1, inner.2)
    else findAllForest tags ch budget

/-- Model of `find_all([...], limit=b)` over a forest with an explicit
remaining budget, stopping as soon as the budget is exhausted. -/
def findAllForest (tags : List String) : List HNode → Nat → List HNode × Nat
  | [], budget => ([], budget)
  | n :: rest, budget =>
    let first := findAllNode tags n budget
    let after := findAllForest tags rest first.2
    (first.1 ++ after.1, after.2)

end

/-- Entry point of `find_all([...], limit=limit)`. -/
def findAllLimited (tags : List String) (limit : Nat) (forest : List HNode) :
    List HNode :=
  (findAllForest tags forest limit).1

mutual

/-- All matching elements inside one node (itself included), pre-order,
no limit. -/
def findAllElemsNode (tags : List String) : HNode → List HNode
  | HNode.text _ => []
  | HNode.elem t a ch =>
    (if t ∈ tags then [HNode.elem t a ch] else []) ++ findAllElemsForest tags ch

/-- All matching elements in pre-order with no limit (the specification's
view of `find_all`; related to `findAllLimited` by claim C10). -/
def findAllElemsForest (tags : List String) : List HNode → List HNode
  | [] => []
  | n :: rest => findAllElemsNode tags n ++ findAllElemsForest tags rest

end

mutual

/-- Raw text strings inside one node, in document order. -/
def textStringsNode : HNode → List String
  | HNode.text s => [s]
  | HNode.elem _ _ ch => textStringsForest ch

/-- Raw text-node strings of a forest, in document order. -/
def textStringsForest : List HNode → List String
  | [] => []
  | n :: rest => textStringsNode n ++ textStringsForest rest

end

/-- Model of `node.get_text(sep, strip=True)` over a forest: strip every
text string, drop the ones that become empty, join with `sep`. -/
def getTextForest (sep : String) (forest : List HNode) : String :=
  joinSep sep
    (((textStringsForest forest).map pyStrip).filter (fun t => t ≠ ""))

/-- Model of `el.get_text(sep, strip=True)` on one element. -/
def getTextElem (sep : String) (el : HNode) : String :=
  getTextForest sep (childrenOf el)

mutual

/-- Number of element nodes inside one node (itself included). -/
def elemCountNode : HNode → Nat
  | HNode.text _ => 0
  | HNode.elem _ _ ch => 1 + elemCountForest ch

/-- Number of element nodes in a forest (used to express "the document has
parseable structure"). -/
def elemCountForest : List HNode → Nat
  | [] => 0
  | n :: rest => elemCountNode n + elemCountForest rest

end

/-- The claim-side notion of "parseable structure exists": the parsed
document contains at least one element node. -/
def hasParseableStructure (soup : List HNode) : Bool :=
  0 < elemCountForest soup

/-! ## `_extract_text_from_html` (src/news_search_core.py lines 187-227) -/

/-- The content-root selection of line 214:
`soup.find("article") or soup.find("main") or soup.body or soup`,
represented by the forest over which the subsequent search runs
(an element stands for its children). -/
def rootForest (soup : List HNode) : List HNode :=
  match findElemForest "article" soup with
  | some el => childrenOf el
  | none =>
    match findElemForest "main" soup with
    | some el => childrenOf el
    | none =>
      match findElemForest "body" soup with
      | some el => childrenOf el
      | none => soup

/-- The two decompose passes (lines 203-212) followed by root selection. -/
def contentRoot (soup : List HNode) : List HNode :=
  rootForest
    (pruneForest ["header", "footer", "nav", "aside", "form"]
      (pruneForest ["script", "style", "noscript", "svg", "canvas"] soup))

/-- The fragment-collection loop of lines 216-220: first 400 matches of
`h1/h2/h3/p/li` inside the root, keeping `get_text(" ", strip=True)`
results that are non-empty and at least 40 characters long. -/
def collectChunks (node : List HNode) : List String :=
  (findAllLimited ["h1", "h2", "h3", "p", "li"] 400 node).filterMap
    (fun el =>
      let t := getTextElem " " el
      if t ≠ "" ∧ 40 ≤ t.length then some t else none)

/-- The part of `_extract_text_from_html` that runs on the parsed soup
(lines 200-227). -/
def extractOnSoup (soup : List HNode) : Option String :=
  let node := contentRoot soup
  let chunks := collectChunks node
  if chunks ≠ [] then some (joinSep "\n\n" chunks)
  else
    let txt := getTextForest "\n" node
    if txt = "" then none else some txt

/-- Embedding of `_extract_text_from_html` (lines 187-227).  `parse` is the
external `BeautifulSoup(·, "html.parser")` oracle and `bsAvail` models
whether the import of bs4 succeeded. -/
def extract_text_from_html (parse : String → List HNode) (bsAvail : Bool)
    (html : String) : Option String :=
  if html = "" then none
  else if ¬ bsAvail then none
  else extractOnSoup (parse html)

/-! ### Specification-side extractor (for claim C7)

The spec describes the collection pass as covering heading levels 1-6,
paragraphs, list items, blockquotes and code/pre elements with a ~10
character threshold; this definition follows those words so it can be
compared against the code. -/

/-- Fragment collection as described by the specification. -/
def collectChunksClaim (node : List HNode) : List String :=
  (findAllElemsForest
      ["h1", "h2", "h3", "h4", "h5", "h6", "p", "li", "blockquote", "code", "pre"]
      node).filterMap
    (fun el =>
      let t := getTextElem " " el
      if t ≠ "" ∧ 10 ≤ t.length then some t else none)

/-- Extractor following the specification text of C7 (same root selection
and whole-root fallback, spec-described collection pass). -/
def extractClaimOnSoup (soup : List HNode) : Option String :=
  let node := contentRoot soup
  let chunks := collectChunksClaim node
  if chunks ≠ [] then some (joinSep "\n\n" chunks)
  else
    let txt := getTextForest "\n" node
    if txt = "" then none else some txt

/-! ### Concrete documents for claim C10 (the 400-element cap) -/

/-- A 40-character qualifying text. -/
def tG10 : String := String.mk (List.replicate 40 'a')

/-- A distinct 40-character qualifying text for the 401st element. -/
def tX10 : String := String.mk (List.replicate 40 'b')

/-- A paragraph element holding `tG10`. -/
def pG10 : HNode := HNode.elem "p" [] [HNode.text tG10]

/-- A paragraph element holding `tX10`. -/
def pX10 : HNode := HNode.elem "p" [] [HNode.text tX10]

/-- A document with 401 qualifying paragraphs: 400 copies of `pG10`
followed by `pX10`. -/
def forestA10 : List HNode := List.replicate 400 pG10 ++ [pX10]

/-- The same document with the 401st paragraph removed. -/
def forestB10 : List HNode := List.replicate 400 pG10


/-! ## Image and canonical-source regex patterns (lines 693-704, 746-760) -/

/-- Pattern `<meta[^>]+property=["\x27]og:image["\x27][^>]+content=["\x27]([^"\x27]+)["\x27]`
(IGNORECASE). -/
def ogImagePat : List RTok :=
  litToks true "<meta" ++ [RTok.many notGt false] ++ litToks true "property=" ++
    [RTok.one isQuoteChar] ++ litToks true "og:image" ++
    [RTok.one isQuoteChar, RTok.many notGt false] ++ litToks true "content=" ++
    [RTok.one isQuoteChar, RTok.many notQuote true, RTok.one isQuoteChar]

/-- Pattern `<meta[^>]+name=["\x27]twitter:image["\x27][^>]+content=["\x27]([^"\x27]+)["\x27]`
(IGNORECASE). -/
def twImagePat : List RTok :=
  litToks true "<meta" ++ [RTok.many notGt false] ++ litToks true "name=" ++
    [RTok.one isQuoteChar] ++ litToks true "twitter:image" ++
    [RTok.one isQuoteChar, RTok.many notGt false] ++ litToks true "content=" ++
    [RTok.one isQuoteChar, RTok.many notQuote true, RTok.one isQuoteChar]

/-- Pattern `<img[^>]+src=["\x27]([^"\x27]+)["\x27]` (IGNORECASE). -/
def imgSrcPat : List RTok :=
  litToks true "<img" ++ [RTok.many notGt false] ++ litToks true "src=" ++
    [RTok.one isQuoteChar, RTok.many notQuote true, RTok.one isQuoteChar]

/-- Pattern `<link[^>]+rel=["\x27]canonical["\x27][^>]+href=["\x27]([^"\x27]+)["\x27]`
(IGNORECASE). -/
def canonicalPat : List RTok :=
  litToks true "<link" ++ [RTok.many notGt false] ++ litToks true "rel=" ++
    [RTok.one isQuoteChar] ++ litToks true "canonical" ++
    [RTok.one isQuoteChar, RTok.many notGt false] ++ litToks true "href=" ++
    [RTok.one isQuoteChar, RTok.many notQuote true, RTok.one isQuoteChar]

/-- Pattern `<meta[^>]+property=["\x27]og:url["\x27][^>]+content=["\x27]([^"\x27]+)["\x27]`
(IGNORECASE). -/
def ogUrlPat : List RTok :=
  litToks true "<meta" ++ [RTok.many notGt false] ++ litToks true "property=" ++
    [RTok.one isQuoteChar] ++ litToks true "og:url" ++
    [RTok.one isQuoteChar, RTok.many notGt false] ++ litToks true "content=" ++
    [RTok.one isQuoteChar, RTok.many notQuote true, RTok.one isQuoteChar]

/-! ## Predicate-based DOM find (for the bs4 fallbacks) -/

/-- Tag name of a node (text nodes have none). -/
def tagOf : HNode → String
  | HNode.elem t _ _ => t
  | HNode.text _ => ""

/-- Attributes of a node. -/
def attrsOf : HNode → List (String × String)
  | HNode.elem _ a _ => a
  | HNode.text _ => []

mutual

/-- First node satisfying `p` inside one node (itself included),
pre-order. -/
def findElemPNode (p : HNode → Bool) : HNode → Option HNode
  | HNode.text s => if p (HNode.text s) then some (HNode.text s) else none
  | HNode.elem t a ch =>
    if p (HNode.elem t a ch) then some (HNode.elem t a ch)
    else findElemPForest p ch

/-- First node satisfying `p` in a forest, pre-order (model of
`soup.find(tag, attrs=...)` style searches). -/
def findElemPForest (p : HNode → Bool) : List HNode → Option HNode
  | [] => none
  | n :: rest =>
    match findElemPNode p n with
    | some m => some m
    | none => findElemPForest p rest

end

/-- Predicate for `soup.find("meta", <attrName>=<attrValue>)`. -/
def metaPred (attrName attrValue : String) (el : HNode) : Bool :=
  tagOf el == "meta" &&
    (match getAttr attrName (attrsOf el) with
      | some v => v == attrValue
      | none => false)

/-- The source-label test of lines 712-714:
`any(k in label for k in ("источник", "первоисточник", "original", "source"))`. -/
def sourceLabelMatch (label : String) : Bool :=
  strContains label "источник" || strContains label "первоисточник" ||
    strContains label "original" || strContains label "source"

/-- The bs4 anchor scan of lines 709-715: first `<a href=...>` whose
lower-cased text carries a source label; returns its `href`. -/
def findSourceAnchor (soup : List HNode) : Option String :=
  match findElemPForest
      (fun el =>
        tagOf el == "a" && (getAttr "href" (attrsOf el)).isSome &&
          sourceLabelMatch (pyLower (getTextElem " " el))) soup with
  | some el => getAttr "href" (attrsOf el)
  | none => none

/-! ## Image resolution (src/news_search_core.py lines 739-786) -/

/-- The bs4 image cascade of lines 769-780 (og:image meta, then
twitter:image meta, then first `<img>` src; a candidate counts only when
its attribute is present and non-empty). -/
def bs4ImageCascade (soup : List HNode) : Option String :=
  let j1 : Option String :=
    match findElemPForest (metaPred "property" "og:image") soup with
    | some el =>
      match getAttr "content" (attrsOf el) with
      | some c => if c ≠ "" then some c else none
      | none => none
    | none => none
  let j2 : Option String :=
    if pyFalsy j1 then
      match findElemPForest (metaPred "name" "twitter:image") soup with
      | some el =>
        match getAttr "content" (attrsOf el) with
        | some c => if c ≠ "" then some c else none
        | none => none
      | none => none
    else j1
  if pyFalsy j2 then
    match findElemForest "img" soup with
    | some el =>
      match getAttr "src" (attrsOf el) with
      | some c => if c ≠ "" then some c else none
      | none => none
    | none => none
  else j2

/-- Embedding of the image-resolution block of `_fetch_article_text`
(lines 739-786): a truthy provider image is returned as-is; otherwise the
three regexes run in priority order and their result is returned as-is;
only when all regexes fail does the bs4 cascade run, and only that
cascade's candidate is resolved with `urljoin(response.url, ·)`. -/
def resolveImage (parse : String → List HNode) (bsAvail : Bool)
    (urljoin : String → String → String) (existingImage : Option String)
    (html responseUrl : String) : Option String :=
  if ¬ pyFalsy existingImage then existingImage
  else
    let r1 : Option String :=
      match reSearch ogImagePat html with
      | some c => some c
      | none =>
        match reSearch twImagePat html with
        | some c => some c
        | none => reSearch imgSrcPat html
    if ¬ pyFalsy r1 then r1
    else if bsAvail then
      let j := bs4ImageCascade (parse html)
      if ¬ pyFalsy j then some (urljoin responseUrl (j.getD ""))
      else r1
    else r1

/-- Image resolver following the specification text of C8: scan og:image,
then twitter:image, then the first inline image, and resolve the chosen
candidate against the base URL before returning it. -/
def resolveImageClaim (urljoin : String → String → String)
    (existingImage : Option String) (html base : String) : Option String :=
  if ¬ pyFalsy existingImage then existingImage
  else
    match reSearch ogImagePat html with
    | some c => some (urljoin base c)
    | none =>
      match reSearch twImagePat html with
      | some c => some (urljoin base c)
      | none =>
        match reSearch imgSrcPat html with
        | some c => some (urljoin base c)
        | none => none

/-- Minimal model of `urllib.parse.urljoin`, adequate for the inputs used
in this file: absolute http(s) references are kept unchanged and
root-relative references are resolved against the scheme and host of the
base URL. -/
def ujModel (base rel : String) : String :=
  if startsWithHttp rel then rel
  else if strStartsWith rel "/" then
    let afterScheme := (base.data.dropWhile (fun c => c ≠ ':')).drop 3
    let host := afterScheme.takeWhile (fun c => c ≠ '/')
    String.mk (base.data.takeWhile (fun c => c ≠ ':')) ++ "://" ++
      String.mk host ++ rel
  else base ++ rel

/-! ## `_fetch_article_text` (src/news_search_core.py lines 635-790) -/

/-- An HTTP response as the fetcher consumes it: final status code, body
text and final URL (after redirects). -/
structure Response where
  statusCode : Nat
  text : String
  url : String

/-- External collaborators of `_fetch_article_text`: the HTTP session
(`session.get`, returning either a response or the message of a raised
exception), the bs4 parser, the availability of bs4, the network-bound
helper `_search_ddg_fallback` (repository code, but a pure network
round-trip), and `urllib.parse.urljoin`. -/
structure FetchEnv where
  net : String → Except String Response
  parse : String → List HNode
  bsAvail : Bool
  ddgFallback : String → Option String
  urljoin : String → String → String

/-- The record returned by `_fetch_article_text`
(`{"full_text": ..., "image": ...}`). -/
structure FetchRes where
  full_text : String
  image : Option String
deriving DecidableEq

/-- The consent-wall sentinel of line 678. -/
def consentMsg : String :=
  "Статья недоступна (требуется согласие на cookies). Попробуйте другую новость."

/-- Embedding of `_fetch_article_text` (lines 635-790).  The first
argument is recursion fuel: the two self-calls (consent fallback, line
676; canonical hop, line 725) are guarded by `_depth == 0` resp.
`_depth < 1` and pass `_depth + 1`, so at most one recursive hop ever
happens and fuel 2 (passed by the entry point) is never exhausted. -/
def fetchArticleTextGo (env : FetchEnv) :
    Nat → String → Option String → Nat → Option String → FetchRes
  | 0, _, _, _, _ => ⟨"", none⟩
  | fuel + 1, url, existingImage, depth, title =>
    let url1 := decode_google_news_url url
    match env.net url1 with
    | Except.error e => ⟨"Ошибка при загрузке статьи: " ++ e, none⟩
    | Except.ok resp =>
      if ¬ resp.statusCode < 400 then
        ⟨"Ошибка загрузки: " ++ toString resp.statusCode, none⟩
      else
        let lowText := pyLower resp.text
        let isConsentPage :=
          strContains resp.url "consent.google.com" ||
            strContains resp.url "consent.google" ||
            (strContains lowText "before you continue" &&
              strContains lowText "google") ||
            (strContains lowText "прежде чем продолжить" &&
              strContains lowText "google") ||
            (strContains lowText "cookies" && strContains lowText "accept" &&
              resp.text.length < 50000)
        if isConsentPage then
          match
            (if depth = 0 then
              match title with
              | some t => if t ≠ "" then env.ddgFallback t else none
              | none => none
            else none) with
          | some altUrl =>
            if ¬ strContains altUrl "consent.google.com" ∧
                ¬ strContains altUrl "news.google.com" then
              fetchArticleTextGo env fuel altUrl existingImage (depth + 1) none
            else ⟨consentMsg, none⟩
          | none => ⟨consentMsg, none⟩
        else
          let html := resp.text
          let text0 := extract_text_from_html env.parse env.bsAvail html
          let canonicalRes : Option FetchRes :=
            if depth < 1 ∧
                (text0 = none ∨ (pyStrip (text0.getD "")).length < 800) ∧
                strContains (pyLower html) "<html" then
              let srcUrl : Option String :=
                match reSearch canonicalPat html with
                | some u => some u
                | none =>
                  match reSearch ogUrlPat html with
                  | some u => some u
                  | none =>
                    if env.bsAvail then findSourceAnchor (env.parse html)
                    else none
              match srcUrl with
              | some su =>
                if su ≠ "" ∧ su ≠ url1 then
                  let su2 := env.urljoin url1 su
                  let alt :=
                    fetchArticleTextGo env fuel su2 existingImage (depth + 1) none
                  if (pyStrip (text0.getD "")).length <
                      (pyStrip alt.full_text).length then some alt
                  else none
                else none
              | none => none
            else none
          match canonicalRes with
          | some alt => alt
          | none =>
            let formatted :=
              match text0 with
              | none => "Не удалось извлечь текст (возможно, защита от ботов)."
              | some t =>
                joinSep "\n\n"
                  (((pySplitOn t '\n').map pyStrip).filter (fun p => p ≠ ""))
            ⟨formatted,
              resolveImage env.parse env.bsAvail env.urljoin existingImage html
                resp.url⟩

/-- Entry point of the `_fetch_article_text` embedding. -/
def fetchArticleText (env : FetchEnv) (url : String)
    (existingImage : Option String) (depth : Nat) (title : Option String) :
    FetchRes :=
  fetchArticleTextGo env 2 url existingImage depth title


/-- Concrete page carrying both an og:image (relative) and a twitter:image
(absolute) meta tag, used for claim C8. -/
def imageHtmlExample : String :=
  "<meta property=\"og:image\" content=\"/img/a.png\"><meta name=\"twitter:image\" content=\"https://t.example/t.png\">"


/-! ## `get_news_with_content` (src/news_search_core.py lines 793-925)

Provider calls (`_yandex_news_rss_search` and friends) are pure network
round-trips and enter the model as oracles returning either a result list
or the message of a raised exception (the dispatch `try/except` of lines
816-859 catches the latter and returns `[]`).  `_parse_date`
(lines 230-253) delegates to the external `datetime`/`email.utils`
parsers; it is modelled as an oracle yielding the POSIX timestamp of the
parsed UTC datetime, `none` on failure.  The cutoff comparison
`dt >= now - timedelta(days=d)` becomes `now - d * 86400 ≤ dt` on
timestamps, which is exact.  The per-article worker
(`executor.submit(_fetch_article_text, ...)` joined by `fut.result()`,
guarded by `try/except` at lines 908-911) is an oracle that may carry an
exception. -/

/-- One provider result dict (`title/url/date/source/body/image`). -/
structure Item where
  title : String
  url : String
  date : String
  source : String
  body : String
  image : Option String
deriving DecidableEq

/-- One output dict of `get_news_with_content` (lines 886-894, 914-922). -/
structure NewsRecord where
  title : String
  link : String
  published : String
  source : String
  description : String
  image : Option String
  full_text : String
deriving DecidableEq

/-- External collaborators of the aggregator. -/
structure SearchEnv where
  yandex : String → Nat → Except String (List Item)
  google : String → Nat → Except String (List Item)
  bing : String → Nat → Except String (List Item)
  newsapi : String → Nat → Except String (List Item)
  parseDate : String → Option Int
  now : Int
  fetch : String → Option String → Option String → Except String FetchRes

/-- The query massage of lines 808-810: short queries without a news
keyword get a localized qualifier appended. -/
def searchQueryOf (query : String) : String :=
  if (pySplitWs query).length < 3 ∧ ¬ strContains (pyLower query) "новости"
  then query ++ " новости"
  else query

/-- The provider dispatch of lines 815-856, including the zero-result
fallbacks; a raised provider exception propagates to the surrounding
`try/except` (modelled by the `Except` error). -/
def pickResults (env : SearchEnv) (sq : String) (fc : Nat) (source : String) :
    Except String (List Item) :=
  if source = "bing" then do
    let r ← env.bing sq fc
    if r = [] then env.google sq fc else pure r
  else if source = "newsapi" then do
    let r ← env.newsapi sq fc
    if r = [] then env.google sq fc else pure r
  else if source = "yandex" then do
    let r ← env.yandex sq fc
    if r = [] then env.google sq fc else pure r
  else if source = "google" then do
    let r ← env.google sq fc
    if r = [] then env.bing sq fc else pure r
  else if source = "both" then do
    let y ← env.yandex sq (fc / 2)
    let g ← env.google sq (fc / 2)
    pure (y ++ g)
  else if source = "all" then do
    let b ← env.bing sq (fc / 2)
    let g ← env.google sq (fc / 2)
    pure (b ++ g)
  else do
    let r ← env.bing sq fc
    if r = [] then env.google sq fc else pure r

/-- Candidates whose parsed date is at or after the cutoff `now - days`
(line 870), in original order. -/
def windowMatches (now : Int) (parsed : List (Item × Option Int))
    (days : Nat) : List Item :=
  parsed.filterMap (fun p =>
    match p.2 with
    | some dt => if now - (days : Int) * 86400 ≤ dt then some p.1 else none
    | none => none)

/-- The expanding-window loop of lines 868-872: take the first window
reaching `minDesired` matches, else the last window computed. -/
def windowLoop (now : Int) (parsed : List (Item × Option Int))
    (minDesired : Nat) : List Nat → List Item
  | [] => []
  | [d] => windowMatches now parsed d
  | d :: d2 :: rest =>
    let m := windowMatches now parsed d
    if minDesired ≤ m.length then m
    else windowLoop now parsed minDesired (d2 :: rest)

/-- The recency filter of lines 861-881: cutoff options `[7, 14, 30]`,
minimum desired count `min(max_results, 6)`, backfill with unparsable-date
candidates in original order, truncation to `max_results`. -/
def recencyPipeline (parseDate : String → Option Int) (now : Int)
    (maxResults : Nat) (results : List Item) : List Item :=
  let parsed := results.map (fun item => (item, parseDate item.date))
  let minDesired := min maxResults 6
  let windowed := windowLoop now parsed minDesired [7, 14, 30]
  let withBackfill :=
    if windowed.length < minDesired then
      let noDate := parsed.filterMap (fun p =>
        match p.2 with
        | none => some p.1
        | some _ => none)
      windowed ++ noDate.take (minDesired - windowed.length)
    else windowed
  withBackfill.take maxResults

/-- The recency filter as described by claim C3: identical selection and
backfill, but with the window sequence `3, 7, 14` the claim states. -/
def recencyPipelineClaim (parseDate : String → Option Int) (now : Int)
    (maxResults : Nat) (results : List Item) : List Item :=
  let parsed := results.map (fun item => (item, parseDate item.date))
  let minDesired := min maxResults 6
  let windowed := windowLoop now parsed minDesired [3, 7, 14]
  let withBackfill :=
    if windowed.length < minDesired then
      let noDate := parsed.filterMap (fun p =>
        match p.2 with
        | none => some p.1
        | some _ => none)
      windowed ++ noDate.take (minDesired - windowed.length)
    else windowed
  withBackfill.take maxResults

/-- One enriched record of the content-fetch loop (lines 898-923): the
worker outcome is joined with `fut.result()` under `try/except`, an
exception becoming an empty-text record; the final image prefers the
provider image (`item.get("image") or res.get("image")`). -/
def buildNewsRecord
    (fetch : String → Option String → Option String → Except String FetchRes)
    (item : Item) : NewsRecord :=
  let res :=
    match fetch item.url item.image (some item.title) with
    | Except.ok r => r
    | Except.error _ => ⟨"", none⟩
  { title := item.title, link := item.url, published := item.date,
    source := item.source, description := item.body,
    image := pyOrOpt item.image res.image,
    full_text := res.full_text }

/-- Embedding of `get_news_with_content` (lines 793-925). -/
def get_news_with_content (env : SearchEnv) (query : String)
    (maxResults : Nat) (fetchContent : Bool) (source : String) :
    List NewsRecord :=
  if query = "" then []
  else
    let fetchCandidates := max (maxResults * 3) 50
    match pickResults env (searchQueryOf query) fetchCandidates source with
    | Except.error _ => []
    | Except.ok results =>
      let filtered := recencyPipeline env.parseDate env.now maxResults results
      if ¬ fetchContent then
        filtered.map (fun item =>
          { title := item.title, link := item.url, published := item.date,
            source := item.source, description := item.body,
            image := item.image, full_text := "" })
      else filtered.map (buildNewsRecord env.fetch)

/-- Normalized URL key as claim C2 describes it (case-insensitive, one
trailing slash ignored). -/
def normalizeUrl (u : String) : String :=
  match (pyLower u).data.reverse with
  | '/' :: restRev => String.mk restRev.reverse
  | cs => String.mk cs.reverse

/-! ### Concrete scenarios for claims C2, C3, C9 -/

/-- Candidate returned by the first provider in the C2 scenario. -/
def itemC2a : Item :=
  ⟨"t1", "http://EX.com/a/", "d", "yandex", "b1", none⟩

/-- Candidate returned by the second provider in the C2 scenario; its URL
differs from `itemC2a` only in casing and a trailing slash. -/
def itemC2b : Item :=
  ⟨"t2", "http://ex.com/a", "d", "google", "b2", none⟩

/-- Environment for the C2 scenario: the two providers each return one of
the overlapping candidates, every date parses to `now`. -/
def envC2 : SearchEnv where
  yandex := fun _ _ => Except.ok [itemC2a]
  google := fun _ _ => Except.ok [itemC2b]
  bing := fun _ _ => Except.ok []
  newsapi := fun _ _ => Except.ok []
  parseDate := fun _ => some 0
  now := 0
  fetch := fun _ _ _ => Except.ok ⟨"", none⟩

/-- Date oracle for the C3 scenarios: `d2/d5/d8/d9/d10` parse to that many
days before `nowC3`, everything else fails. -/
def pdC3 : String → Option Int := fun s =>
  if s = "d2" then some (1000000 - 2 * 86400)
  else if s = "d5" then some (1000000 - 5 * 86400)
  else if s = "d8" then some (1000000 - 8 * 86400)
  else if s = "d9" then some (1000000 - 9 * 86400)
  else if s = "d10" then some (1000000 - 10 * 86400)
  else none

/-- The reference instant of the C3 scenarios. -/
def nowC3 : Int := 1000000

/-- A candidate with a given title and date string. -/
def mkItemC3 (t d : String) : Item := ⟨t, "http://e.example/" ++ t, d, "s", "", none⟩

/-- Twelve candidates: six dated 5 days ago followed by six dated 2 days
ago (the C3 counterexample input). -/
def itemsC3cx : List Item :=
  [mkItemC3 "o1" "d5", mkItemC3 "o2" "d5", mkItemC3 "o3" "d5",
    mkItemC3 "o4" "d5", mkItemC3 "o5" "d5", mkItemC3 "o6" "d5",
    mkItemC3 "n1" "d2", mkItemC3 "n2" "d2", mkItemC3 "n3" "d2",
    mkItemC3 "n4" "d2", mkItemC3 "n5" "d2", mkItemC3 "n6" "d2"]

/-- Ten candidates dated 10, 9 and 8 days ago (the P6 instance of C3). -/
def itemsC3p6 : List Item :=
  [mkItemC3 "a1" "d10", mkItemC3 "a2" "d10", mkItemC3 "a3" "d10",
    mkItemC3 "a4" "d10", mkItemC3 "b1" "d9", mkItemC3 "b2" "d9",
    mkItemC3 "b3" "d9", mkItemC3 "c1" "d8", mkItemC3 "c2" "d8",
    mkItemC3 "c3" "d8"]

/-- The parsed pairs of the P6 instance. -/
def parsedC3p6 : List (Item × Option Int) :=
  itemsC3p6.map (fun item => (item, pdC3 item.date))

/-- Candidate with a provider-supplied preview image (the C9 scenario). -/
def itemC9 : Item :=
  ⟨"t", "http://s.example/a", "d", "src", "b", some "http://i.example/p.png"⟩

/-- Environment for the C9 scenario: one candidate, and a worker whose
future raises. -/
def envC9 : SearchEnv where
  yandex := fun _ _ => Except.ok [itemC9]
  google := fun _ _ => Except.ok []
  bing := fun _ _ => Except.ok []
  newsapi := fun _ _ => Except.ok []
  parseDate := fun _ => some 0
  now := 0
  fetch := fun _ _ _ => Except.error "injected"


/-! # Theorems -/

theorem readVarintAux_rest_le (shift acc : Nat) (l : List Nat) :
    (readVarintAux shift acc l).2.length ≤ l.length := by
  induction l generalizing shift acc with
  | nil => simp [readVarintAux]
  | cons b rest ih =>
    simp only [readVarintAux]
    split
    · simp
    · exact Nat.le_trans (ih _ _) (Nat.le_succ _)

theorem readVarint_rest_lt (b : Nat) (rest : List Nat) :
    (readVarint (b :: rest)).2.length < (b :: rest).length := by
  simp only [readVarint, readVarintAux]
  split
  · simp
  · exact Nat.lt_succ_of_le (readVarintAux_rest_le _ _ _)


theorem dropLenLe (n : Nat) (l : List Nat) : (l.drop n).length ≤ l.length := by
  simp [List.length_drop]

theorem dropWhileLenLe (p : Nat → Bool) (l : List Nat) :
    (l.dropWhile p).length ≤ l.length := by
  induction l with
  | nil => simp [List.dropWhile]
  | cons b rest ih =>
    simp only [List.dropWhile]
    split
    · exact Nat.le_trans ih (Nat.le_succ _)
    · simp

theorem skipVarintBytes_le (l : List Nat) :
    (skipVarintBytes l).length ≤ l.length :=
  Nat.le_trans (dropLenLe 1 _) (dropWhileLenLe _ l)


theorem parseProtobufGo_eq_head_urlStringsGo (fuel : Nat) :
    ∀ data : List Nat,
      parseProtobufGo fuel data = (urlStringsGo fuel data).head? := by
  induction fuel with
  | zero => intro data; cases data <;> rfl
  | succ fuel ih =>
    intro data
    cases data with
    | nil => rfl
    | cons b rest =>
      simp only [parseProtobufGo, urlStringsGo]
      split
      · exact ih _
      · split
        · exact ih _
        · split
          · split
            · rfl
            · split
              · rfl
              · split
                · rename_i s heq
                  simp [heq]
                · rename_i heq
                  simp only [heq, Option.toList, List.nil_append]
                  rw [ih, ih]
                  cases urlStringsGo fuel _ <;> simp
          · split
            · exact ih _
            · rfl


/-- C4: for every input string `url`, `decode_google_news_url` terminates
and returns a string (it is a total Lean function); when the URL lacks the
Google News article marker, or the token regex does not match, or base64
decoding fails, or the byte scan finds no embedded http(s) string, the
original `url` is returned unchanged. -/
theorem C4_decode_url_total_and_identity_fallback :
    (∀ url : String,
        ¬ strContains url "news.google.com/rss/articles/" ∧
          ¬ strContains url "news.google.com/articles/" →
          decode_google_news_url url = url) ∧
    (∀ url : String, reSearch articlesPat url = none →
        decode_google_news_url url = url) ∧
    (∀ url tok : String, reSearch articlesPat url = some tok →
        urlsafeB64Decode (padB64 tok) = none →
        decode_google_news_url url = url) ∧
    (∀ (url tok : String) (bytes : List Nat),
        reSearch articlesPat url = some tok →
        urlsafeB64Decode (padB64 tok) = some bytes →
        parseProtobuf bytes = none →
        decode_google_news_url url = url) := by
  refine ⟨?_, ?_, ?_, ?_⟩
  · intro url h
    unfold decode_google_news_url
    rw [if_pos h]
  · intro url h
    unfold decode_google_news_url
    split
    · rfl
    · simp only [h]
  · intro url tok h1 h2
    unfold decode_google_news_url
    split
    · rfl
    · simp only [h1, h2]
  · intro url tok bytes h1 h2 h3
    unfold decode_google_news_url
    split
    · rfl
    · simp only [h1, h2, h3]

/-- Witness for C4: each fallback case exercised on a concrete URL (no
marker; marker but no token; token whose padded base64 is invalid; token
that decodes to bytes carrying no http(s) string). -/
theorem C4_decode_url_total_and_identity_fallback_witness :
    decode_google_news_url "https://example.org/page" = "https://example.org/page" ∧
    decode_google_news_url "https://news.google.com/articles/" =
      "https://news.google.com/articles/" ∧
    decode_google_news_url "https://news.google.com/rss/articles/A" =
      "https://news.google.com/rss/articles/A" ∧
    decode_google_news_url "https://news.google.com/articles/AA" =
      "https://news.google.com/articles/AA" :=
  ⟨C4_decode_url_total_and_identity_fallback.1 _ (by decide),
    C4_decode_url_total_and_identity_fallback.2.1 _ (by decide),
    C4_decode_url_total_and_identity_fallback.2.2.1 _ "A" (by decide) (by decide),
    C4_decode_url_total_and_identity_fallback.2.2.2 _ "AA" [0] (by decide) (by decide)
      (by decide)⟩

/-- C5: the protobuf scan returns exactly the first http(s) string in scan
order among all length-delimited fields (recursively), and a wrapper URL
whose payload embeds `https://example.com/a` as a length-delimited field
resolves to exactly that string (the base64 token below encodes the bytes
`0x12 0x15` followed by the UTF-8 of `https://example.com/a`). -/
theorem C5_resolver_first_url_scan_order :
    (∀ data : List Nat, parseProtobuf data = (urlStrings data).head?) ∧
    (∀ (url tok : String) (bytes : List Nat) (s : String),
        strContains url "news.google.com/rss/articles/" →
        reSearch articlesPat url = some tok →
        urlsafeB64Decode (padB64 tok) = some bytes →
        parseProtobuf bytes = some s →
        decode_google_news_url url = s) ∧
    decode_google_news_url
        "https://news.google.com/rss/articles/EhVodHRwczovL2V4YW1wbGUuY29tL2E" =
      "https://example.com/a" := by
  refine ⟨?_, ?_, by decide⟩
  · intro data
    exact parseProtobufGo_eq_head_urlStringsGo data.length data
  · intro url tok bytes s hshape h1 h2 h3
    unfold decode_google_news_url
    rw [if_neg (by simp [hshape])]
    simp only [h1, h2, h3]

/-- Witness for C5: the wrapper URL above satisfies every hypothesis of the
middle conjunct and resolves to `https://example.com/a`. -/
theorem C5_resolver_first_url_scan_order_witness :
    decode_google_news_url
        "https://news.google.com/rss/articles/EhVodHRwczovL2V4YW1wbGUuY29tL2E" =
      "https://example.com/a" :=
  C5_resolver_first_url_scan_order.2.1
    "https://news.google.com/rss/articles/EhVodHRwczovL2V4YW1wbGUuY29tL2E"
    "EhVodHRwczovL2V4YW1wbGUuY29tL2E"
    [18, 21, 104, 116, 116, 112, 115, 58, 47, 47, 101, 120, 97, 109, 112, 108,
      101, 46, 99, 111, 109, 47, 97]
    "https://example.com/a" (by decide) (by decide) (by decide) (by decide)


/-! ## Extractor lemmas and claims C6, C7 -/

theorem stringNeEmptyLen (s : String) (h : s ≠ "") : 0 < s.length := by
  cases s with
  | mk data =>
    cases data with
    | nil => exact absurd rfl h
    | cons c t => simp [String.length]

theorem joinSep_ne_empty (sep : String) (l : List String) (hne : l ≠ [])
    (hall : ∀ x ∈ l, x ≠ "") : joinSep sep l ≠ "" := by
  match l with
  | [] => exact absurd rfl hne
  | [x] => simpa [joinSep] using hall x (by simp)
  | x :: y :: t =>
    have hx : 0 < x.length := stringNeEmptyLen x (hall x (by simp))
    intro hc
    have hlen := congrArg String.length hc
    simp [joinSep, String.length_append] at hlen
    omega

theorem mem_collectChunks (node : List HNode) (c : String)
    (h : c ∈ collectChunks node) :
    c ≠ "" ∧ 40 ≤ c.length ∧
      ∃ el, el ∈ findAllLimited ["h1", "h2", "h3", "p", "li"] 400 node ∧
        c = getTextElem " " el := by
  unfold collectChunks at h
  rw [List.mem_filterMap] at h
  obtain ⟨el, hel, hf⟩ := h
  simp only at hf
  split at hf
  · rename_i hcond
    cases hf
    exact ⟨hcond.1, hcond.2, el, hel, rfl⟩
  · cases hf

theorem extractOnSoup_pos (soup : List HNode)
    (h : collectChunks (contentRoot soup) ≠ []) :
    extractOnSoup soup =
      some (joinSep "\n\n" (collectChunks (contentRoot soup))) := by
  unfold extractOnSoup
  rw [if_pos h]

theorem extractOnSoup_neg (soup : List HNode)
    (h : collectChunks (contentRoot soup) = []) :
    extractOnSoup soup =
      (if getTextForest "\n" (contentRoot soup) = "" then none
        else some (getTextForest "\n" (contentRoot soup))) := by
  unfold extractOnSoup
  rw [if_neg (by simp [h])]

/-- C6 (amended): the extractor always terminates and returns either
`none` or a non-empty string, and it returns `none` exactly when the input
is empty, the HTML parser is unavailable, or the parsed document yields no
qualifying fragments and an empty whole-root text — which can happen even
for valid, structured input. -/
theorem C6_extractor_none_or_nonempty :
    ∀ (parse : String → List HNode) (bsAvail : Bool) (html : String),
      (extract_text_from_html parse bsAvail html = none ∨
        ∃ s, extract_text_from_html parse bsAvail html = some s ∧ s ≠ "") ∧
      (extract_text_from_html parse bsAvail html = none ↔
        html = "" ∨ bsAvail = false ∨
          (collectChunks (contentRoot (parse html)) = [] ∧
            getTextForest "\n" (contentRoot (parse html)) = "")) := by
  intro parse bsAvail html
  unfold extract_text_from_html
  by_cases h1 : html = ""
  · rw [if_pos h1]
    exact ⟨Or.inl rfl, by simp [h1]⟩
  · rw [if_neg h1]
    by_cases h2 : bsAvail
    · rw [if_neg (by simpa using h2)]
      unfold extractOnSoup
      by_cases h3 : collectChunks (contentRoot (parse html)) ≠ []
      · rw [if_pos h3]
        refine ⟨Or.inr ⟨_, rfl,
          joinSep_ne_empty _ _ h3 (fun x hx => (mem_collectChunks _ _ hx).1)⟩, ?_⟩
        simp [h1, h2, h3]
      · rw [if_neg h3]
        rw [ne_eq, not_not] at h3
        by_cases h4 : getTextForest "\n" (contentRoot (parse html)) = ""
        · rw [if_pos h4]
          exact ⟨Or.inl rfl, by simp [h1, h2, h3, h4]⟩
        · rw [if_neg h4]
          exact ⟨Or.inr ⟨_, rfl, h4⟩, by simp [h1, h2, h4]⟩
    · rw [if_pos (by simpa using h2)]
      refine ⟨Or.inl rfl, ?_⟩
      simp at h2
      simp [h2]

/-- Witness for C6: both branches of the disjunction on concrete inputs
(a document with one qualifying paragraph, and the empty input). -/
theorem C6_extractor_none_or_nonempty_witness :
    (extract_text_from_html
        (fun _ => [HNode.elem "p" []
          [HNode.text (String.mk (List.replicate 40 'q'))]]) true "<p>x</p>" = none ∨
      ∃ s, extract_text_from_html
          (fun _ => [HNode.elem "p" []
            [HNode.text (String.mk (List.replicate 40 'q'))]]) true "<p>x</p>" = some s ∧
        s ≠ "") ∧
    (extract_text_from_html (fun _ => []) true "" = none ↔
      ("" : String) = "" ∨ (true = false) ∨
        (collectChunks (contentRoot []) = [] ∧
          getTextForest "\n" (contentRoot []) = "")) :=
  ⟨(C6_extractor_none_or_nonempty _ true "<p>x</p>").1,
    (C6_extractor_none_or_nonempty (fun _ => []) true "").2⟩

/-- C6 counterexample: `<div></div>` parses (per the documented behaviour
of `html.parser`) to a single empty `div` element — parseable structure
exists and the input is neither empty nor invalid — yet the extractor
returns `none`, refuting "returns null only when no parseable structure
exists in the input". -/
theorem C6_counterexample_structured_but_none :
    extract_text_from_html (fun _ => [HNode.elem "div" [] []]) true
        "<div></div>" = none ∧
    hasParseableStructure [HNode.elem "div" [] []] = true ∧
    "<div></div>" ≠ "" := by
  refine ⟨by decide, by decide, by decide⟩


/-- C7 counterexample: the code collects only `h1/h2/h3/p/li` fragments of
at least 40 characters, not the spec-described heading-1-6 / blockquote /
code-pre set with a ~10-character threshold.  On a document with a
21-character paragraph plus stray text the code falls back to the
whole-root dump while the spec-described extractor keeps the paragraph
alone, and on a document with a 50-character blockquote plus stray text
the code again falls back while the spec-described extractor keeps the
blockquote text. -/
theorem C7_counterexample_tags_threshold :
    extractOnSoup
        [HNode.elem "body" []
          [HNode.elem "p" [] [HNode.text "twenty characters ok."],
            HNode.text "stray"]] =
      some ("twenty characters ok." ++ "\n" ++ "stray") ∧
    extractClaimOnSoup
        [HNode.elem "body" []
          [HNode.elem "p" [] [HNode.text "twenty characters ok."],
            HNode.text "stray"]] =
      some "twenty characters ok." ∧
    extractOnSoup
        [HNode.elem "body" []
          [HNode.elem "blockquote" []
            [HNode.text "a fifty character long quotation goes right here.."],
            HNode.text "zz"]] =
      some ("a fifty character long quotation goes right here.." ++ "\n" ++ "zz") ∧
    extractClaimOnSoup
        [HNode.elem "body" []
          [HNode.elem "blockquote" []
            [HNode.text "a fifty character long quotation goes right here.."],
            HNode.text "zz"]] =
      some "a fifty character long quotation goes right here.." := by
  refine ⟨by decide, by decide, by decide, by decide⟩

/-- C7 (amended): within the selected content root the code collects text
from `h1`, `h2`, `h3`, `p` and `li` elements only (first 400 matches), in
document order, keeping fragments whose stripped text has at least 40
characters; when the collection is empty it falls back to the whole-root
text.  Concretely, a 45-character `h2` is kept while a 21-character `p`
and a 50-character `blockquote` in the same document are not. -/
theorem C7_extractor_tags_and_threshold :
    (∀ (node : List HNode) (c : String), c ∈ collectChunks node →
        c ≠ "" ∧ 40 ≤ c.length ∧
          ∃ el, el ∈ findAllLimited ["h1", "h2", "h3", "p", "li"] 400 node ∧
            c = getTextElem " " el) ∧
    (∀ soup : List HNode, collectChunks (contentRoot soup) ≠ [] →
        extractOnSoup soup =
          some (joinSep "\n\n" (collectChunks (contentRoot soup)))) ∧
    (∀ soup : List HNode, collectChunks (contentRoot soup) = [] →
        extractOnSoup soup =
          (if getTextForest "\n" (contentRoot soup) = "" then none
            else some (getTextForest "\n" (contentRoot soup)))) ∧
    extractOnSoup
        [HNode.elem "body" []
          [HNode.elem "h2" []
            [HNode.text "a forty-five character heading sits here....."],
            HNode.elem "p" [] [HNode.text "twenty characters ok."],
            HNode.elem "blockquote" []
              [HNode.text "a fifty character long quotation goes right here.."]]] =
      some "a forty-five character heading sits here....." := by
  refine ⟨mem_collectChunks, extractOnSoup_pos, extractOnSoup_neg, by decide⟩

/-- Witness for C7: the hypotheses of the first three conjuncts discharged
on concrete documents. -/
theorem C7_extractor_tags_and_threshold_witness :
    ("aaaaaaaaaaaaaaaaaaaaaaaaaaaaaaaaaaaaaaaa" ≠ "" ∧
      40 ≤ ("aaaaaaaaaaaaaaaaaaaaaaaaaaaaaaaaaaaaaaaa" : String).length ∧
      ∃ el, el ∈ findAllLimited ["h1", "h2", "h3", "p", "li"] 400
          [HNode.elem "p" [] [HNode.text "aaaaaaaaaaaaaaaaaaaaaaaaaaaaaaaaaaaaaaaa"]] ∧
        "aaaaaaaaaaaaaaaaaaaaaaaaaaaaaaaaaaaaaaaa" = getTextElem " " el) ∧
    extractOnSoup
        [HNode.elem "p" [] [HNode.text "aaaaaaaaaaaaaaaaaaaaaaaaaaaaaaaaaaaaaaaa"]] =
      some (joinSep "\n\n" (collectChunks (contentRoot
        [HNode.elem "p" [] [HNode.text "aaaaaaaaaaaaaaaaaaaaaaaaaaaaaaaaaaaaaaaa"]]))) ∧
    extractOnSoup [HNode.elem "div" [] [HNode.text "hi"]] =
      (if getTextForest "\n" (contentRoot [HNode.elem "div" [] [HNode.text "hi"]]) = ""
        then none
        else some (getTextForest "\n"
          (contentRoot [HNode.elem "div" [] [HNode.text "hi"]]))) :=
  ⟨C7_extractor_tags_and_threshold.1 _ _ (by decide),
    C7_extractor_tags_and_threshold.2.1 _ (by decide),
    C7_extractor_tags_and_threshold.2.2.1 _ (by decide)⟩


/-! ## Claim C10: the 400-element cap of the collection pass -/

theorem findAll_take_pair (tags : List String) :
    (∀ (n : HNode) (budget : Nat),
        findAllNode tags n budget =
          ((findAllElemsNode tags n).take budget,
            budget - (findAllElemsNode tags n).length)) ∧
    (∀ (forest : List HNode) (budget : Nat),
        findAllForest tags forest budget =
          ((findAllElemsForest tags forest).take budget,
            budget - (findAllElemsForest tags forest).length)) := by
  refine findAllNode.mutual_induct tags
    (fun n budget => findAllNode tags n budget =
      ((findAllElemsNode tags n).take budget,
        budget - (findAllElemsNode tags n).length))
    (fun forest budget => findAllForest tags forest budget =
      ((findAllElemsForest tags forest).take budget,
        budget - (findAllElemsForest tags forest).length))
    ?_ ?_ ?_ ?_ ?_ ?_
  · intro s budget
    simp [findAllNode, findAllElemsNode]
  · intro t a ch ht
    simp [findAllNode, findAllElemsNode, ht]
  · intro t a ch ht k ih
    simp only [findAllNode, findAllElemsNode, if_pos ht, ih]
    simp [List.take_succ_cons]
  · intro t a ch budget ht ih
    simp only [findAllNode, findAllElemsNode, if_neg ht, ih]
    simp
  · intro budget
    simp [findAllForest, findAllElemsForest]
  · intro n rest budget first ih1 ih2
    simp only [findAllForest, findAllElemsForest]
    rw [show NewsApp.findAllNode tags n budget = first from rfl] at ih1 ⊢
    rw [ih2, ih1]
    simp [List.take_append_eq_append_take]
    omega

theorem findAllLimited_eq_take (tags : List String) (limit : Nat)
    (forest : List HNode) :
    findAllLimited tags limit forest =
      (findAllElemsForest tags forest).take limit := by
  unfold findAllLimited
  rw [(findAll_take_pair tags).2 forest limit]

theorem pruneForest_append (tags : List String) (a b : List HNode) :
    pruneForest tags (a ++ b) = pruneForest tags a ++ pruneForest tags b := by
  induction a with
  | nil => simp [pruneForest]
  | cons n rest ih =>
    simp only [List.cons_append, pruneForest]
    cases pruneNodeOpt tags n <;> simp [ih]

theorem pruneForest_replicate (tags : List String) (x : HNode) (n : Nat)
    (h : pruneNodeOpt tags x = some x) :
    pruneForest tags (List.replicate n x) = List.replicate n x := by
  induction n with
  | zero => rfl
  | succ k ih => simp [List.replicate_succ, pruneForest, h, ih]

theorem findElemForest_append_none (tag : String) (a b : List HNode)
    (h : findElemForest tag a = none) :
    findElemForest tag (a ++ b) = findElemForest tag b := by
  induction a with
  | nil => simp
  | cons n rest ih =>
    simp only [List.cons_append, findElemForest] at h ⊢
    cases hn : findElemNode tag n with
    | some m => simp [hn] at h
    | none =>
      simp only [hn] at h ⊢
      exact ih h

theorem findElemForest_replicate_none (tag : String) (x : HNode)
    (h : findElemNode tag x = none) (n : Nat) :
    findElemForest tag (List.replicate n x) = none := by
  induction n with
  | zero => rfl
  | succ k ih => simp [List.replicate_succ, findElemForest, h, ih]

theorem findAllElemsForest_append (tags : List String) (a b : List HNode) :
    findAllElemsForest tags (a ++ b) =
      findAllElemsForest tags a ++ findAllElemsForest tags b := by
  induction a with
  | nil => simp [findAllElemsForest]
  | cons n rest ih => simp [findAllElemsForest, ih]

theorem findAllElemsForest_replicate (tags : List String) (x : HNode) (n : Nat)
    (h : findAllElemsNode tags x = [x]) :
    findAllElemsForest tags (List.replicate n x) = List.replicate n x := by
  induction n with
  | zero => rfl
  | succ k ih => simp [List.replicate_succ, findAllElemsForest, h, ih]

theorem filterMapReplicate {a b : Type} (f : a → Option b) (x : a) (y : b)
    (h : f x = some y) (n : Nat) :
    (List.replicate n x).filterMap f = List.replicate n y := by
  induction n with
  | zero => rfl
  | succ k ih => simp [List.replicate_succ, List.filterMap_cons, h, ih]

theorem contentRoot_forestA10 : contentRoot forestA10 = forestA10 := by
  have hart : findElemForest "article" forestA10 = none := by
    unfold forestA10
    rw [findElemForest_append_none _ _ _
      (findElemForest_replicate_none _ pG10 (by rfl) 400)]
    rfl
  have hmain : findElemForest "main" forestA10 = none := by
    unfold forestA10
    rw [findElemForest_append_none _ _ _
      (findElemForest_replicate_none _ pG10 (by rfl) 400)]
    rfl
  have hbody : findElemForest "body" forestA10 = none := by
    unfold forestA10
    rw [findElemForest_append_none _ _ _
      (findElemForest_replicate_none _ pG10 (by rfl) 400)]
    rfl
  have hpr : pruneForest ["header", "footer", "nav", "aside", "form"]
      (pruneForest ["script", "style", "noscript", "svg", "canvas"] forestA10) =
        forestA10 := by
    unfold forestA10
    rw [pruneForest_append,
      pruneForest_replicate ["script", "style", "noscript", "svg", "canvas"]
        pG10 400 (by rfl),
      show pruneForest ["script", "style", "noscript", "svg", "canvas"] [pX10]
          = [pX10] from rfl,
      pruneForest_append,
      pruneForest_replicate ["header", "footer", "nav", "aside", "form"]
        pG10 400 (by rfl)]
    rfl
  unfold contentRoot
  rw [hpr]
  simp only [rootForest, hart, hmain, hbody]

theorem contentRoot_forestB10 : contentRoot forestB10 = forestB10 := by
  have hart : findElemForest "article" forestB10 = none :=
    findElemForest_replicate_none "article" pG10 (by rfl) 400
  have hmain : findElemForest "main" forestB10 = none :=
    findElemForest_replicate_none "main" pG10 (by rfl) 400
  have hbody : findElemForest "body" forestB10 = none :=
    findElemForest_replicate_none "body" pG10 (by rfl) 400
  have hpr : pruneForest ["header", "footer", "nav", "aside", "form"]
      (pruneForest ["script", "style", "noscript", "svg", "canvas"] forestB10) =
        forestB10 := by
    unfold forestB10
    rw [pruneForest_replicate ["script", "style", "noscript", "svg", "canvas"]
        pG10 400 (by rfl),
      pruneForest_replicate ["header", "footer", "nav", "aside", "form"]
        pG10 400 (by rfl)]
  unfold contentRoot
  rw [hpr]
  simp only [rootForest, hart, hmain, hbody]

theorem findAllElems_forestA10 :
    findAllElemsForest ["h1", "h2", "h3", "p", "li"] forestA10 =
      List.replicate 400 pG10 ++ [pX10] := by
  unfold forestA10
  rw [findAllElemsForest_append,
    findAllElemsForest_replicate ["h1", "h2", "h3", "p", "li"] pG10 400 (by rfl)]
  rfl

theorem collectChunks_forestA10 :
    collectChunks forestA10 = List.replicate 400 tG10 := by
  unfold collectChunks
  rw [findAllLimited_eq_take, findAllElems_forestA10]
  have htake : (List.replicate 400 pG10 ++ [pX10]).take 400 =
      List.replicate 400 pG10 := by
    rw [List.take_append_eq_append_take, List.length_replicate, Nat.sub_self,
      List.take_zero, List.append_nil,
      List.take_of_length_le (le_of_eq (List.length_replicate 400 pG10))]
  rw [htake]
  exact filterMapReplicate _ pG10 tG10 (by rfl) 400

theorem collectChunks_forestB10 :
    collectChunks forestB10 = List.replicate 400 tG10 := by
  unfold collectChunks forestB10
  rw [findAllLimited_eq_take,
    findAllElemsForest_replicate ["h1", "h2", "h3", "p", "li"] pG10 400 (by rfl),
    List.take_of_length_le (le_of_eq (List.length_replicate 400 pG10))]
  exact filterMapReplicate _ pG10 tG10 (by rfl) 400

/-- C10: `find_all` with `limit=400` returns exactly the first 400 matches
of the unlimited scan; on the 401-paragraph document `forestA10` whose
401st paragraph is matched by the unlimited scan and carries qualifying
(40-character) text, the extraction result is identical to that of the
document without it — the text is silently omitted; and when zero
fragments are kept the whole-root fallback is used instead. -/
theorem C10_collection_capped_at_400 :
    (∀ (tags : List String) (limit : Nat) (forest : List HNode),
        findAllLimited tags limit forest =
          (findAllElemsForest tags forest).take limit) ∧
    (pX10 ∈ findAllElemsForest ["h1", "h2", "h3", "p", "li"] forestA10 ∧
      40 ≤ (getTextElem " " pX10).length ∧
      extractOnSoup forestA10 = extractOnSoup forestB10) ∧
    (∀ soup : List HNode, collectChunks (contentRoot soup) = [] →
        extractOnSoup soup =
          (if getTextForest "\n" (contentRoot soup) = "" then none
            else some (getTextForest "\n" (contentRoot soup)))) := by
  refine ⟨findAllLimited_eq_take, ⟨?_, by decide, ?_⟩, extractOnSoup_neg⟩
  · rw [findAllElems_forestA10]
    exact List.mem_append_right _ (List.mem_singleton.mpr rfl)
  · have hA : collectChunks (contentRoot forestA10) = List.replicate 400 tG10 := by
      rw [contentRoot_forestA10]
      exact collectChunks_forestA10
    have hB : collectChunks (contentRoot forestB10) = List.replicate 400 tG10 := by
      rw [contentRoot_forestB10]
      exact collectChunks_forestB10
    have hne : List.replicate 400 tG10 ≠ ([] : List String) := by
      intro hc
      have hlen := congrArg List.length hc
      rw [List.length_replicate, List.length_nil] at hlen
      exact absurd hlen (by omega)
    rw [extractOnSoup_pos _ (by rw [hA]; exact hne),
      extractOnSoup_pos _ (by rw [hB]; exact hne), hA, hB]

/-- Witness for C10: the fallback conjunct discharged on a concrete
document with no qualifying fragments. -/
theorem C10_collection_capped_at_400_witness :
    extractOnSoup [HNode.elem "span" [] [HNode.text "short"]] =
      (if getTextForest "\n"
            (contentRoot [HNode.elem "span" [] [HNode.text "short"]]) = ""
        then none
        else some (getTextForest "\n"
          (contentRoot [HNode.elem "span" [] [HNode.text "short"]]))) :=
  C10_collection_capped_at_400.2.2 _ (by decide)


/-! ## Claims C1 and C8 (the article fetcher and its image resolution) -/

theorem fetchGo_neterr_sentinel (env : FetchEnv) (fuel : Nat) (url : String)
    (img : Option String) (depth : Nat) (title : Option String) (e : String)
    (hnet : env.net (decode_google_news_url url) = Except.error e) :
    fetchArticleTextGo env (fuel + 1) url img depth title =
      ⟨"Ошибка при загрузке статьи: " ++ e, none⟩ := by
  simp only [fetchArticleTextGo, hnet]

theorem fetchGo_status_sentinel (env : FetchEnv) (fuel : Nat) (url : String)
    (img : Option String) (depth : Nat) (title : Option String)
    (resp : Response)
    (hnet : env.net (decode_google_news_url url) = Except.ok resp)
    (hbad : ¬ resp.statusCode < 400) :
    fetchArticleTextGo env (fuel + 1) url img depth title =
      ⟨"Ошибка загрузки: " ++ toString resp.statusCode, none⟩ := by
  simp only [fetchArticleTextGo, hnet]
  rw [if_pos hbad]

/-- C1: the fetcher always returns a `full_text`/`image` record (it is a
total Lean function, all library failure modes being reflected in the
oracles); a non-success HTTP status yields the sentinel
`"Ошибка загрузки: <status>"` with a null image, and a network exception
(the message of which the Python interpolates into the string) yields the
sentinel `"Ошибка при загрузке статьи: <e>"` with a null image instead of
propagating. -/
theorem C1_fetch_total_and_sentinels :
    (∀ (env : FetchEnv) (url : String) (img : Option String) (depth : Nat)
        (title : Option String),
        ∃ (ft : String) (im : Option String),
          fetchArticleText env url img depth title = ⟨ft, im⟩) ∧
    (∀ (env : FetchEnv) (url : String) (img : Option String) (depth : Nat)
        (title : Option String) (resp : Response),
        env.net (decode_google_news_url url) = Except.ok resp →
        ¬ resp.statusCode < 400 →
        fetchArticleText env url img depth title =
          ⟨"Ошибка загрузки: " ++ toString resp.statusCode, none⟩) ∧
    (∀ (env : FetchEnv) (url : String) (img : Option String) (depth : Nat)
        (title : Option String) (e : String),
        env.net (decode_google_news_url url) = Except.error e →
        fetchArticleText env url img depth title =
          ⟨"Ошибка при загрузке статьи: " ++ e, none⟩) := by
  refine ⟨?_, ?_, ?_⟩
  · intro env url img depth title
    exact ⟨_, _, rfl⟩
  · intro env url img depth title resp hnet hbad
    exact fetchGo_status_sentinel env 1 url img depth title resp hnet hbad
  · intro env url img depth title e hnet
    exact fetchGo_neterr_sentinel env 1 url img depth title e hnet

/-- Witness for C1: a stub session returning status 404 produces the load
sentinel, and a stub session raising a connection error produces the
exception sentinel. -/
theorem C1_fetch_total_and_sentinels_witness :
    fetchArticleText
        ⟨fun _ => Except.ok ⟨404, "", "http://u.example/x"⟩, fun _ => [], true,
          fun _ => none, fun _ r => r⟩
        "http://u.example/x" none 0 none =
      ⟨"Ошибка загрузки: " ++ toString (404 : Nat), none⟩ ∧
    fetchArticleText
        ⟨fun _ => Except.error "boom", fun _ => [], true, fun _ => none,
          fun _ r => r⟩
        "http://u.example/x" none 0 none =
      ⟨"Ошибка при загрузке статьи: boom", none⟩ :=
  ⟨C1_fetch_total_and_sentinels.2.1 _ _ none 0 none _ rfl (by decide),
    C1_fetch_total_and_sentinels.2.2 _ _ none 0 none "boom" rfl⟩

/-- C8 counterexample: with no provider image, an og:image candidate found
by the regex fast path is returned exactly as written in the page — the
relative reference `/img/a.png` — not resolved against the base URL as the
claim states (the spec-worded resolver returns the absolute URL). -/
theorem C8_counterexample_regex_path_unresolved :
    resolveImage (fun _ => []) true ujModel none imageHtmlExample
        "https://site.example/page" = some "/img/a.png" ∧
    resolveImageClaim ujModel none imageHtmlExample
        "https://site.example/page" = some "https://site.example/img/a.png" ∧
    resolveImage (fun _ => []) true ujModel none imageHtmlExample
        "https://site.example/page" ≠
      resolveImageClaim ujModel none imageHtmlExample
        "https://site.example/page" := by
  refine ⟨by decide, by decide, by decide⟩

/-- C8 (amended): with no provider image the scan priority is og:image
meta, then twitter:image meta, then first inline image; a candidate found
by the regex fast path is returned as-is, and only a candidate found by
the bs4 fallback (all regexes failing) is resolved against the page URL
with urljoin. -/
theorem C8_image_priority_and_resolution :
    (∀ (parse : String → List HNode) (bsAvail : Bool)
        (uj : String → String → String) (html base s : String), s ≠ "" →
        resolveImage parse bsAvail uj (some s) html base = some s) ∧
    (∀ (parse : String → List HNode) (bsAvail : Bool)
        (uj : String → String → String) (html base c : String),
        reSearch ogImagePat html = some c → c ≠ "" →
        resolveImage parse bsAvail uj none html base = some c) ∧
    (∀ (parse : String → List HNode) (bsAvail : Bool)
        (uj : String → String → String) (html base c : String),
        reSearch ogImagePat html = none →
        reSearch twImagePat html = some c → c ≠ "" →
        resolveImage parse bsAvail uj none html base = some c) ∧
    (∀ (parse : String → List HNode) (bsAvail : Bool)
        (uj : String → String → String) (html base c : String),
        reSearch ogImagePat html = none → reSearch twImagePat html = none →
        reSearch imgSrcPat html = some c → c ≠ "" →
        resolveImage parse bsAvail uj none html base = some c) ∧
    (∀ (parse : String → List HNode) (uj : String → String → String)
        (html base : String),
        reSearch ogImagePat html = none → reSearch twImagePat html = none →
        reSearch imgSrcPat html = none →
        resolveImage parse true uj none html base =
          (if ¬ pyFalsy (bs4ImageCascade (parse html)) then
            some (uj base ((bs4ImageCascade (parse html)).getD ""))
          else none)) := by
  refine ⟨?_, ?_, ?_, ?_, ?_⟩
  · intro parse bsAvail uj html base s hs
    unfold resolveImage
    rw [if_pos (by simp [pyFalsy, hs])]
  · intro parse bsAvail uj html base c hog hc
    simp [resolveImage, pyFalsy, hog, hc]
  · intro parse bsAvail uj html base c hog htw hc
    simp [resolveImage, pyFalsy, hog, htw, hc]
  · intro parse bsAvail uj html base c hog htw himg hc
    simp [resolveImage, pyFalsy, hog, htw, himg, hc]
  · intro parse uj html base hog htw himg
    simp [resolveImage, pyFalsy, hog, htw, himg]

/-- Witness for C8: each branch of the amended theorem exercised on a
concrete page (provider image; og:image; twitter:image only; inline image
only; bs4 fallback on a page the regexes cannot match). -/
theorem C8_image_priority_and_resolution_witness :
    resolveImage (fun _ => []) true ujModel (some "http://known.example/i.png")
        imageHtmlExample "https://site.example/page" =
      some "http://known.example/i.png" ∧
    resolveImage (fun _ => []) true ujModel none imageHtmlExample
        "https://site.example/page" = some "/img/a.png" ∧
    resolveImage (fun _ => []) true ujModel none
        "<meta name=\"twitter:image\" content=\"https://t.example/t.png\">"
        "https://site.example/page" = some "https://t.example/t.png" ∧
    resolveImage (fun _ => []) true ujModel none
        "<img class=\"x\" src=\"/pic.jpg\">" "https://site.example/page" =
      some "/pic.jpg" ∧
    resolveImage
        (fun _ => [HNode.elem "meta"
          [("property", "og:image"), ("content", "/deep.png")] []])
        true ujModel none "no tags here" "https://site.example/page" =
      (if ¬ pyFalsy (bs4ImageCascade
            ((fun _ => [HNode.elem "meta"
              [("property", "og:image"), ("content", "/deep.png")] []])
              ("no tags here" : String))) then
        some (ujModel "https://site.example/page"
          ((bs4ImageCascade
            ((fun _ => [HNode.elem "meta"
              [("property", "og:image"), ("content", "/deep.png")] []])
              ("no tags here" : String))).getD ""))
      else none) :=
  ⟨C8_image_priority_and_resolution.1 _ true _ _ _ _ (by decide),
    C8_image_priority_and_resolution.2.1 _ true _ _ _ _ (by decide) (by decide),
    C8_image_priority_and_resolution.2.2.1 _ true _ _ _ _ (by decide) (by decide)
      (by decide),
    C8_image_priority_and_resolution.2.2.2.1 _ true _ _ _ _ (by decide)
      (by decide) (by decide) (by decide),
    C8_image_priority_and_resolution.2.2.2.2 _ _ _ _ (by decide) (by decide)
      (by decide)⟩


/-! ## Claims C2, C3, C9 (the search aggregator) -/

/-- C2 counterexample: two providers return candidates whose URLs
normalize to the same key (casing and trailing-slash difference only),
yet the aggregated output contains two entries for that key — the
aggregator performs no URL deduplication at all. -/
theorem C2_counterexample_no_dedup :
    normalizeUrl itemC2a.url = normalizeUrl itemC2b.url ∧
    itemC2a.url ≠ itemC2b.url ∧
    ¬ ((get_news_with_content envC2 "q w e" 6 false "both").filter
        (fun r => normalizeUrl r.link == normalizeUrl itemC2a.url)).length = 1 := by
  refine ⟨by decide, by decide, by decide⟩

/-- C2 (amended): the aggregator performs no deduplication; with the
"both" source the providers' lists are concatenated first provider first,
and overlapping candidates all survive the recency filter and truncation,
so the output carries one entry per occurrence in provider order. -/
theorem C2_no_dedup_merge_order :
    (∀ (env : SearchEnv) (sq : String) (fc : Nat) (y g : List Item),
        env.yandex sq (fc / 2) = Except.ok y →
        env.google sq (fc / 2) = Except.ok g →
        pickResults env sq fc "both" = Except.ok (y ++ g)) ∧
    ((get_news_with_content envC2 "q w e" 6 false "both").map
        (fun r => r.link) = [itemC2a.url, itemC2b.url] ∧
      ((get_news_with_content envC2 "q w e" 6 false "both").filter
        (fun r => normalizeUrl r.link == normalizeUrl itemC2a.url)).length = 2) := by
  refine ⟨?_, by decide, by decide⟩
  intro env sq fc y g hy hg
  simp [pickResults, hy, hg, Except.bind, bind]
  rfl

/-- Witness for C2: the merge-order conjunct on the concrete providers of
the scenario. -/
theorem C2_no_dedup_merge_order_witness :
    pickResults envC2 "q w e" 50 "both" = Except.ok [itemC2a, itemC2b] :=
  C2_no_dedup_merge_order.1 envC2 "q w e" 50 [itemC2a] [itemC2b] rfl rfl

/-- C3 counterexample: on twelve candidates (six dated 5 days ago, then
six dated 2 days ago) with `max_results = 6`, the code's 7-day first
window keeps the six older candidates, while the claimed 3-day first
window would keep the six newer ones — so the window sequence is not
`3, 7, 14`. -/
theorem C3_counterexample_window_sequence :
    recencyPipeline pdC3 nowC3 6 itemsC3cx = itemsC3cx.take 6 ∧
    recencyPipelineClaim pdC3 nowC3 6 itemsC3cx = itemsC3cx.drop 6 ∧
    recencyPipeline pdC3 nowC3 6 itemsC3cx ≠
      recencyPipelineClaim pdC3 nowC3 6 itemsC3cx := by
  refine ⟨by decide, by decide, by decide⟩

/-- C3 (amended): the recency filter attempts expanding windows of 7,
then 14, then 30 days, takes the first whose match count reaches
`min(max_results, 6)` (falling back to the last window computed), then
backfills with unparsable-date candidates; for 10 candidates dated 10, 9
and 8 days old with `max_results = 5` the 7-day window yields 0 and the
14-day window supplies the returned candidates. -/
theorem C3_recency_windows_7_14_30 :
    (∀ (now : Int) (parsed : List (Item × Option Int)) (minD : Nat),
        minD ≤ (windowMatches now parsed 7).length →
        windowLoop now parsed minD [7, 14, 30] = windowMatches now parsed 7) ∧
    (∀ (now : Int) (parsed : List (Item × Option Int)) (minD : Nat),
        (windowMatches now parsed 7).length < minD →
        minD ≤ (windowMatches now parsed 14).length →
        windowLoop now parsed minD [7, 14, 30] = windowMatches now parsed 14) ∧
    (∀ (now : Int) (parsed : List (Item × Option Int)) (minD : Nat),
        (windowMatches now parsed 7).length < minD →
        (windowMatches now parsed 14).length < minD →
        windowLoop now parsed minD [7, 14, 30] = windowMatches now parsed 30) ∧
    ((windowMatches nowC3 parsedC3p6 7).length = 0 ∧
      recencyPipeline pdC3 nowC3 5 itemsC3p6 = itemsC3p6.take 5) := by
  refine ⟨?_, ?_, ?_, by decide, by decide⟩
  · intro now parsed minD h1
    simp [windowLoop, h1]
  · intro now parsed minD h1 h2
    simp [windowLoop, Nat.not_le.mpr h1, h2]
  · intro now parsed minD h1 h2
    simp [windowLoop, Nat.not_le.mpr h1, Nat.not_le.mpr h2]

/-- Witness for C3: the three window-selection conjuncts discharged on
the concrete P6 candidates (with minimum desired counts 0, 5 and 11). -/
theorem C3_recency_windows_7_14_30_witness :
    windowLoop nowC3 parsedC3p6 0 [7, 14, 30] =
      windowMatches nowC3 parsedC3p6 7 ∧
    windowLoop nowC3 parsedC3p6 5 [7, 14, 30] =
      windowMatches nowC3 parsedC3p6 14 ∧
    windowLoop nowC3 parsedC3p6 11 [7, 14, 30] =
      windowMatches nowC3 parsedC3p6 30 :=
  ⟨C3_recency_windows_7_14_30.1 nowC3 parsedC3p6 0 (by decide),
    C3_recency_windows_7_14_30.2.1 nowC3 parsedC3p6 5 (by decide) (by decide),
    C3_recency_windows_7_14_30.2.2.1 nowC3 parsedC3p6 11 (by decide) (by decide)⟩

/-- C9 counterexample: the worker of the single candidate raises, and the
resulting record has empty `full_text` but a non-null image — the
provider-supplied preview image, which the assembly step prefers. -/
theorem C9_counterexample_image_not_null :
    get_news_with_content envC9 "q w e" 1 true "yandex" =
      [⟨"t", "http://s.example/a", "d", "src", "b",
        some "http://i.example/p.png", ""⟩] ∧
    ¬ (get_news_with_content envC9 "q w e" 1 true "yandex").map
        (fun r => r.image) = [none] := by
  refine ⟨by decide, by decide⟩

/-- C9 (amended): in content-fetch mode the batch yields exactly one
record per surviving candidate, in order, each built from its own
candidate and worker outcome alone; a worker exception turns into an
empty `full_text` for that record only, its image falling back to the
provider image when present (null otherwise). -/
theorem C9_batch_isolation :
    (∀ (fetch : String → Option String → Option String → Except String FetchRes)
        (items : List Item),
        (items.map (buildNewsRecord fetch)).length = items.length) ∧
    (∀ (fetch : String → Option String → Option String → Except String FetchRes)
        (pre : List Item) (item : Item) (post : List Item),
        (pre ++ item :: post).map (buildNewsRecord fetch) =
          pre.map (buildNewsRecord fetch) ++
            buildNewsRecord fetch item :: post.map (buildNewsRecord fetch)) ∧
    (∀ (fetch : String → Option String → Option String → Except String FetchRes)
        (item : Item) (e : String),
        fetch item.url item.image (some item.title) = Except.error e →
        buildNewsRecord fetch item =
          { title := item.title, link := item.url, published := item.date,
            source := item.source, description := item.body,
            image := pyOrOpt item.image none, full_text := "" }) ∧
    (∀ (env : SearchEnv) (q : String) (mr : Nat) (src : String)
        (results : List Item),
        q ≠ "" →
        pickResults env (searchQueryOf q) (max (mr * 3) 50) src =
          Except.ok results →
        get_news_with_content env q mr true src =
          (recencyPipeline env.parseDate env.now mr results).map
            (buildNewsRecord env.fetch)) := by
  refine ⟨?_, ?_, ?_, ?_⟩
  · intro fetch items
    simp
  · intro fetch pre item post
    simp
  · intro fetch item e hf
    simp [buildNewsRecord, hf]
  · intro env q mr src results hq hpick
    unfold get_news_with_content
    rw [if_neg hq]
    simp only [hpick]
    simp

/-- Witness for C9: the error-record conjunct on the concrete failing
worker, and the batch equation on the concrete environment. -/
theorem C9_batch_isolation_witness :
    buildNewsRecord (fun _ _ _ => Except.error "injected") itemC9 =
      { title := itemC9.title, link := itemC9.url, published := itemC9.date,
        source := itemC9.source, description := itemC9.body,
        image := pyOrOpt itemC9.image none, full_text := "" } ∧
    get_news_with_content envC9 "q w e" 1 true "yandex" =
      (recencyPipeline envC9.parseDate envC9.now 1 [itemC9]).map
        (buildNewsRecord envC9.fetch) :=
  ⟨C9_batch_isolation.2.2.1 _ itemC9 "injected" rfl,
    C9_batch_isolation.2.2.2 envC9 "q w e" 1 "yandex" [itemC9] (by decide) rfl⟩

end NewsApp
